import Mathlib

/-!
# Verification of the ETH EMA trend-tracking strategy engine

Shallow embedding of the converged strategy module (`getTradingDecision` and its
helpers) and of the shared constants.  JavaScript `number` arithmetic is
idealized as exact rational arithmetic (`ℚ`); the single place where a
non-finite IEEE value can be produced (the contract-size division) is modelled
explicitly by the `JsNum` type.  Numeric string fields of the exchange payloads
(`c`, `o`, `h`, `l`, `last`, `totalEq`, `pos`, `avgPx`, `upl`, `slTriggerPx`)
are modelled by their parsed rational values; an absent or empty optional string
is modelled by `Option.none`.
-/

set_option maxRecDepth 100000
set_option maxHeartbeats 4000000

/- The Batteries rational operations are irreducible by default, which blocks
kernel-checked evaluation of the executable definitions below by `decide`;
restore their reducibility so that concrete runs of the embedded strategy can
be evaluated. -/
set_option allowUnsafeReducibility true in
attribute [semireducible] Rat.mul Rat.inv Rat.add Rat.sub Rat.ofScientific Rat.neg Rat.div

/-- `INSTRUMENT_ID` from `constants.ts`. -/
def INSTRUMENT_ID : String := "ETH-USDT-SWAP"

/-- `CONTRACT_VAL_ETH` from `constants.ts`: one contract is 0.1 ETH. -/
def CONTRACT_VAL_ETH : ℚ := 0.1

/-- `TAKER_FEE_RATE` from `constants.ts` (unused by the converged decision path
but kept for completeness). -/
def TAKER_FEE_RATE : ℚ := 0.0005

/-- Modelled from the spec: `DEFAULT_LEVERAGE` is imported by the strategy
module from `../constants`, but the provided `constants.ts` predates that
export.  The spec fixes leverage as "a fixed configured constant" and the
module's own comments read "Force 5x", so it is modelled as the constant 5. -/
def DEFAULT_LEVERAGE : ℚ := 5

/-- A candle as consumed by the strategy (`CandleData` in `types.ts`), with the
numeric string fields already parsed. -/
structure CandleData where
  ts : Int
  o : ℚ
  h : ℚ
  l : ℚ
  c : ℚ
  vol : ℚ
  deriving DecidableEq, Repr

/-- `calcEMAArray`'s inner loop: given the smoothing factor `k` and the
previous EMA value, produce the EMA values for the remaining prices.
Mirrors `emaArray.push(prices[i]*k + emaArray[i-1]*(1-k))`. -/
def emaFrom (k : ℚ) (prev : ℚ) : List ℚ → List ℚ
  | [] => []
  | p :: ps => (p * k + prev * (1 - k)) :: emaFrom k (p * k + prev * (1 - k)) ps

/-- `calcEMAArray` from the strategy module: empty input gives `[]`, otherwise
the series is seeded with `prices[0]` and follows the standard EMA recurrence
with `k = 2/(period+1)`. -/
def calcEMAArray (prices : List ℚ) (period : ℕ) : List ℚ :=
  match prices with
  | [] => []
  | p0 :: rest => p0 :: emaFrom (2 / (period + 1)) p0 rest

theorem emaFrom_length (k prev : ℚ) (l : List ℚ) :
    (emaFrom k prev l).length = l.length := by
  induction l generalizing prev with
  | nil => rfl
  | cons p ps ih => simp [emaFrom, ih]

theorem calcEMAArray_length (prices : List ℚ) (period : ℕ) :
    (calcEMAArray prices period).length = prices.length := by
  cases prices with
  | nil => rfl
  | cons p0 rest => simp [calcEMAArray, emaFrom_length]

/-- The recurrence satisfied by `emaFrom`, phrased with `getD`-indexing:
entry `j` is `l[j]*k + (previous entry)*(1-k)`, where the previous entry is the
seed `prev` when `j = 0`. -/
theorem emaFrom_getD (k : ℚ) (l : List ℚ) (prev : ℚ) (j : ℕ) (hj : j < l.length) :
    (emaFrom k prev l).getD j 0 =
      l.getD j 0 * k +
        (if j = 0 then prev else (emaFrom k prev l).getD (j - 1) 0) * (1 - k) := by
  induction l generalizing prev j with
  | nil => simp at hj
  | cons p ps ih =>
    cases j with
    | zero => simp [emaFrom]
    | succ j =>
      have hj' : j < ps.length := by simpa using hj
      have := ih (p * k + prev * (1 - k)) j hj'
      cases j with
      | zero => simpa [emaFrom] using this
      | succ j => simpa [emaFrom] using this

/-- C8: for every price sequence and period, `calcEMAArray` returns a sequence
of the same length as the input (empty for empty input), whose element 0 equals
the first input price, and whose element `i ≥ 1` equals
`prices[i] * k + output[i-1] * (1-k)` with `k = 2/(period+1)`. -/
theorem calcEMAArray_spec (prices : List ℚ) (period : ℕ) :
    (calcEMAArray prices period).length = prices.length ∧
    (prices = [] → calcEMAArray prices period = []) ∧
    (0 < prices.length →
      (calcEMAArray prices period).getD 0 0 = prices.getD 0 0) ∧
    (∀ i, 1 ≤ i → i < prices.length →
      (calcEMAArray prices period).getD i 0 =
        prices.getD i 0 * (2 / (period + 1)) +
          (calcEMAArray prices period).getD (i - 1) 0 * (1 - 2 / (period + 1))) := by
  refine ⟨calcEMAArray_length prices period, ?_, ?_, ?_⟩
  · rintro rfl; rfl
  · intro h
    cases prices with
    | nil => simp at h
    | cons p0 rest => simp [calcEMAArray]
  · intro i hi1 hilen
    cases prices with
    | nil => simp at hilen
    | cons p0 rest =>
      obtain ⟨j, rfl⟩ : ∃ j, i = j + 1 := ⟨i - 1, (Nat.succ_pred_eq_of_pos hi1).symm⟩
      have hj : j < rest.length := by simpa [Nat.succ_lt_succ_iff] using hilen
      have hrec := emaFrom_getD (2 / (period + 1)) rest p0 j hj
      cases j with
      | zero => simpa [calcEMAArray] using hrec
      | succ j => simpa [calcEMAArray] using hrec

theorem calcEMAArray_spec_witness :
    ((calcEMAArray [3, 5, 7] 15).length = ([3, 5, 7] : List ℚ).length ∧
      (([3, 5, 7] : List ℚ) = [] → calcEMAArray [3, 5, 7] 15 = []) ∧
      (0 < ([3, 5, 7] : List ℚ).length →
        (calcEMAArray [3, 5, 7] 15).getD 0 0 = ([3, 5, 7] : List ℚ).getD 0 0) ∧
      (∀ i, 1 ≤ i → i < ([3, 5, 7] : List ℚ).length →
        (calcEMAArray [3, 5, 7] 15).getD i 0 =
          ([3, 5, 7] : List ℚ).getD i 0 * (2 / ((15 : ℕ) + 1)) +
            (calcEMAArray [3, 5, 7] 15).getD (i - 1) 0 * (1 - 2 / ((15 : ℕ) + 1)))) ∧
    (calcEMAArray [3, 5, 7] 15).getD 1 0 = 5 * (1/8) + 3 * (7/8) :=
  ⟨calcEMAArray_spec [3, 5, 7] 15, by decide⟩

/-- Result record of `analyze1HTrend` (converged variant): direction string
(`"UP"`, `"DOWN"` or `"NEUTRAL"`), as-of timestamp, description text. -/
structure TrendResult where
  direction : String
  timestamp : Int
  description : String
  deriving DecidableEq, Repr

/-- `analyze1HTrend` (converged variant): with fewer than 100 candles returns
NEUTRAL with the insufficient-data description; otherwise the direction is read
off the EMA15/EMA60 relationship at the last index, and the candle colour
(close vs open) only selects the strength wording inside the description. -/
def analyze1HTrend (candles : List CandleData) : TrendResult :=
  if candles.length < 100 then ⟨"NEUTRAL", 0, "数据不足"⟩
  else
    let closes := candles.map (·.c)
    let opens := candles.map (·.o)
    let timestamps := candles.map (·.ts)
    let ema15 := calcEMAArray closes 15
    let ema60 := calcEMAArray closes 60
    let i := closes.length - 1
    let isGold := ema15.getD i 0 > ema60.getD i 0
    let isDeath := ema15.getD i 0 < ema60.getD i 0
    let isYang := closes.getD i 0 > opens.getD i 0
    let isYin := closes.getD i 0 < opens.getD i 0
    if isGold then
      ⟨"UP", timestamps.getD i 0,
        "上涨 (" ++ (if isYang then "强势" else "回调中") ++ " / EMA金叉)"⟩
    else if isDeath then
      ⟨"DOWN", timestamps.getD i 0,
        "下跌 (" ++ (if isYin then "强势" else "反弹中") ++ " / EMA死叉)"⟩
    else ⟨"NEUTRAL", timestamps.getD i 0, "均线粘合/震荡"⟩

/-- C7: trend classification is total (the embedding is a total function); with
fewer than 100 candles it returns NEUTRAL with the insufficient-data
description, and with at least 100 candles the direction is determined by the
EMA15/EMA60 relationship at the last index alone — the candle colour (close vs
open) never appears in the direction formula, it only selects the strength
wording of the description. -/
theorem analyze1HTrend_spec (candles : List CandleData) :
    (candles.length < 100 →
      analyze1HTrend candles = ⟨"NEUTRAL", 0, "数据不足"⟩) ∧
    (100 ≤ candles.length →
      (analyze1HTrend candles).direction =
        (if (calcEMAArray (candles.map (·.c)) 15).getD (candles.length - 1) 0 >
            (calcEMAArray (candles.map (·.c)) 60).getD (candles.length - 1) 0 then "UP"
         else if (calcEMAArray (candles.map (·.c)) 15).getD (candles.length - 1) 0 <
            (calcEMAArray (candles.map (·.c)) 60).getD (candles.length - 1) 0 then "DOWN"
         else "NEUTRAL")) := by
  constructor
  · intro h
    unfold analyze1HTrend
    rw [if_pos h]
  · intro h
    have h' : ¬ candles.length < 100 := by omega
    unfold analyze1HTrend
    rw [if_neg h']
    dsimp only
    simp only [List.length_map]
    split_ifs <;> rfl

/-- A flat synthetic candle (open = high = low = close). -/
def mkFlatCandle (ts : Int) (x : ℚ) : CandleData := ⟨ts, x, x, x, x, 0⟩

/-- 1H closes giving a gold EMA state at the last candle: 100 then 99 × 110. -/
def upTrendCloses : List ℚ := 100 :: List.replicate 99 110

/-- 1H candle list whose converged trend verdict is UP. -/
def upTrend1H : List CandleData := upTrendCloses.map (mkFlatCandle 0)

theorem analyze1HTrend_spec_witness :
    (100 ≤ upTrend1H.length ∧ (analyze1HTrend upTrend1H).direction = "UP") ∧
    ([] : List CandleData).length < 100 ∧
      analyze1HTrend [] = ⟨"NEUTRAL", 0, "数据不足"⟩ := by
  refine ⟨⟨by decide, ?_⟩, by decide, ?_⟩
  · rw [(analyze1HTrend_spec upTrend1H).2 (by decide)]
    decide
  · exact (analyze1HTrend_spec []).1 (by decide)

/-- Result record of `analyze3mEntry` (converged variant).  The source field
`structure` is a Lean keyword and is rendered here as `structureLabel`. -/
structure EntryResult where
  signal : Bool
  action : String
  sl : ℚ
  reason : String
  structureLabel : String
  deriving DecidableEq, Repr

/-- The backward validation loop of the long branch of `analyze3mEntry`:
`for (x = i-1; x >= 0; x--) { if (ema15[x] < ema60[x]) { found = true; track
min low } else if (found) break; }`.  Candles at or above the EMA60 line that
occur before the zone has begun are skipped; once the zone has begun, the first
such candle terminates the scan. -/
def deathScan (ema15 ema60 lows : List ℚ) : ℕ → Bool → ℚ → Bool × ℚ
  | 0, found, lowest =>
      if ema15.getD 0 0 < ema60.getD 0 0 then
        (true, if lows.getD 0 0 < lowest then lows.getD 0 0 else lowest)
      else (found, lowest)
  | y + 1, found, lowest =>
      if ema15.getD (y + 1) 0 < ema60.getD (y + 1) 0 then
        deathScan ema15 ema60 lows y true
          (if lows.getD (y + 1) 0 < lowest then lows.getD (y + 1) 0 else lowest)
      else if found then (found, lowest)
      else deathScan ema15 ema60 lows y found lowest

/-- The backward validation loop of the short branch of `analyze3mEntry`
(mirror image of `deathScan`: gold candles, max high). -/
def goldScan (ema15 ema60 highs : List ℚ) : ℕ → Bool → ℚ → Bool × ℚ
  | 0, found, highest =>
      if ema15.getD 0 0 > ema60.getD 0 0 then
        (true, if highs.getD 0 0 > highest then highs.getD 0 0 else highest)
      else (found, highest)
  | y + 1, found, highest =>
      if ema15.getD (y + 1) 0 > ema60.getD (y + 1) 0 then
        goldScan ema15 ema60 highs y true
          (if highs.getD (y + 1) 0 > highest then highs.getD (y + 1) 0 else highest)
      else if found then (found, highest)
      else goldScan ema15 ema60 highs y found highest

/-- `analyze3mEntry` (converged variant): with fewer than 100 candles no
signal; under trend UP a fresh golden cross at the last candle validated by
`deathScan` yields BUY with the tracked minimum low as protective stop; under
trend DOWN the mirror image yields SELL; otherwise a HOLD result whose reason
text depends on the trend. -/
def analyze3mEntry (candles : List CandleData) (trendDirection : String) : EntryResult :=
  if candles.length < 100 then ⟨false, "HOLD", 0, "数据不足", "未知"⟩
  else
    let closes := candles.map (·.c)
    let highs := candles.map (·.h)
    let lows := candles.map (·.l)
    let ema15 := calcEMAArray closes 15
    let ema60 := calcEMAArray closes 60
    let i := closes.length - 1
    let currentGold := ema15.getD i 0 > ema60.getD i 0
    let structureLabel := if currentGold then "金叉多头区域" else "死叉空头区域"
    let upResult : Option EntryResult :=
      if trendDirection = "UP" then
        if ema15.getD i 0 > ema60.getD i 0 ∧ ema15.getD (i - 1) 0 ≤ ema60.getD (i - 1) 0 then
          let scan := deathScan ema15 ema60 lows (i - 1) false (lows.getD i 0)
          if scan.1 then some ⟨true, "BUY", scan.2, "1H上涨 + 3m死叉后金叉", structureLabel⟩
          else none
        else none
      else none
    let downResult : Option EntryResult :=
      if trendDirection = "DOWN" then
        if ema15.getD i 0 < ema60.getD i 0 ∧ ema15.getD (i - 1) 0 ≥ ema60.getD (i - 1) 0 then
          let scan := goldScan ema15 ema60 highs (i - 1) false (highs.getD i 0)
          if scan.1 then some ⟨true, "SELL", scan.2, "1H下跌 + 3m金叉后死叉", structureLabel⟩
          else none
        else none
      else none
    match upResult with
    | some r => r
    | none =>
      match downResult with
      | some r => r
      | none =>
        if trendDirection = "UP" then
          ⟨false, "HOLD", 0, "1H上涨中，等待3m回调信号", structureLabel⟩
        else if trendDirection = "DOWN" then
          ⟨false, "HOLD", 0, "1H下跌中，等待3m反弹信号", structureLabel⟩
        else ⟨false, "HOLD", 0, "1H趋势不明确，暂无入场", structureLabel⟩

/-- Once the death zone has begun (`found = true`), the scan always reports
success. -/
theorem deathScan_found_true (e15 e60 lows : List ℚ) (x : ℕ) (acc : ℚ) :
    (deathScan e15 e60 lows x true acc).1 = true := by
  induction x generalizing acc with
  | zero =>
    rw [deathScan]
    split <;> rfl
  | succ y ih =>
    rw [deathScan]
    split
    · exact ih _
    · rw [if_pos rfl]

theorem deathScan_skip (e15 e60 lows : List ℚ) (x : ℕ) (acc : ℚ)
    (h : ¬ e15.getD (x + 1) 0 < e60.getD (x + 1) 0) :
    deathScan e15 e60 lows (x + 1) false acc = deathScan e15 e60 lows x false acc := by
  conv_lhs => rw [deathScan]
  rw [if_neg h, if_neg (by decide : ¬ (false = true))]

/-- The scan started in not-found mode succeeds exactly when some candle at or
below the start index is a death candle — candles on or above the EMA60 line
before the zone begins are skipped, not terminal. -/
theorem deathScan_fst (e15 e60 lows : List ℚ) (x : ℕ) (acc : ℚ) :
    (deathScan e15 e60 lows x false acc).1 = true ↔
      ∃ y, y ≤ x ∧ e15.getD y 0 < e60.getD y 0 := by
  induction x generalizing acc with
  | zero =>
    rw [deathScan]
    by_cases h : e15.getD 0 0 < e60.getD 0 0
    · rw [if_pos h]
      exact ⟨fun _ => ⟨0, Nat.le_refl 0, h⟩, fun _ => rfl⟩
    · rw [if_neg h]
      refine ⟨fun hh => absurd hh Bool.false_ne_true, ?_⟩
      rintro ⟨z, hz, hD⟩
      have hz0 : z = 0 := Nat.le_zero.mp hz
      rw [hz0] at hD
      exact absurd hD h
  | succ y ih =>
    by_cases h : e15.getD (y + 1) 0 < e60.getD (y + 1) 0
    · rw [deathScan, if_pos h]
      exact ⟨fun _ => ⟨y + 1, Nat.le_refl _, h⟩,
             fun _ => deathScan_found_true e15 e60 lows y _⟩
    · rw [deathScan_skip e15 e60 lows y acc h, ih]
      constructor
      · rintro ⟨z, hz, hD⟩
        exact ⟨z, Nat.le_succ_of_le hz, hD⟩
      · rintro ⟨z, hz, hD⟩
        refine ⟨z, ?_, hD⟩
        by_contra hzy
        have hz1 : z = y + 1 := by omega
        rw [hz1] at hD
        exact absurd hD h

/-- Minimum low accumulated over the contiguous run of death candles extending
downward from index `x` (stopping at the first non-death candle), seeded with
`acc`.  This is the found-mode behaviour of `deathScan`. -/
def zoneMinFrom (e15 e60 lows : List ℚ) : ℕ → ℚ → ℚ
  | 0, acc =>
      if e15.getD 0 0 < e60.getD 0 0 then
        (if lows.getD 0 0 < acc then lows.getD 0 0 else acc)
      else acc
  | y + 1, acc =>
      if e15.getD (y + 1) 0 < e60.getD (y + 1) 0 then
        zoneMinFrom e15 e60 lows y (if lows.getD (y + 1) 0 < acc then lows.getD (y + 1) 0 else acc)
      else acc

theorem deathScan_true_eq (e15 e60 lows : List ℚ) (x : ℕ) (acc : ℚ) :
    deathScan e15 e60 lows x true acc = (true, zoneMinFrom e15 e60 lows x acc) := by
  induction x generalizing acc with
  | zero =>
    rw [deathScan, zoneMinFrom]
    by_cases h : e15.getD 0 0 < e60.getD 0 0
    · rw [if_pos h, if_pos h]
    · rw [if_neg h, if_neg h]
  | succ y ih =>
    rw [deathScan, zoneMinFrom]
    by_cases h : e15.getD (y + 1) 0 < e60.getD (y + 1) 0
    · rw [if_pos h, if_pos h]
      exact ih _
    · rw [if_neg h, if_neg h, if_pos rfl]

/-- Full characterisation of the backward scan: if `j` is a death candle at or
below the start index `s` and every index strictly between `j` and `s` is not a
death candle, then the scan skips down to `j` and returns the minimum low of
the contiguous death run extending downward from `j`. -/
theorem deathScan_eq_of_zone (e15 e60 lows : List ℚ) (s j : ℕ) (hj : j ≤ s)
    (hD : e15.getD j 0 < e60.getD j 0)
    (hskip : ∀ y, j < y → y ≤ s → ¬ e15.getD y 0 < e60.getD y 0) (acc : ℚ) :
    deathScan e15 e60 lows s false acc = (true, zoneMinFrom e15 e60 lows j acc) := by
  induction s generalizing acc with
  | zero =>
    have hj0 : j = 0 := Nat.le_zero.mp hj
    subst hj0
    rw [deathScan, zoneMinFrom, if_pos hD, if_pos hD]
  | succ s ih =>
    by_cases hds : e15.getD (s + 1) 0 < e60.getD (s + 1) 0
    · have hjs : j = s + 1 := by
        by_contra hne
        exact hskip (s + 1) (Nat.lt_of_le_of_ne hj hne) (Nat.le_refl _) hds
      subst hjs
      rw [deathScan, zoneMinFrom, if_pos hds, if_pos hds]
      exact deathScan_true_eq e15 e60 lows s _
    · have hj' : j ≤ s := by
        by_contra hgt
        have hjs : j = s + 1 := by omega
        rw [hjs] at hD
        exact absurd hD hds
      rw [deathScan_skip e15 e60 lows s acc hds]
      exact ih hj' (fun y hy1 hy2 => hskip y hy1 (Nat.le_succ_of_le hy2)) acc

/-- Maximum high accumulated over the contiguous run of gold candles extending
downward from index `x` (stopping at the first non-gold candle), seeded with
`acc`.  This is the found-mode behaviour of `goldScan`. -/
def zoneMaxFrom (e15 e60 highs : List ℚ) : ℕ → ℚ → ℚ
  | 0, acc =>
      if e15.getD 0 0 > e60.getD 0 0 then
        (if highs.getD 0 0 > acc then highs.getD 0 0 else acc)
      else acc
  | y + 1, acc =>
      if e15.getD (y + 1) 0 > e60.getD (y + 1) 0 then
        zoneMaxFrom e15 e60 highs y (if highs.getD (y + 1) 0 > acc then highs.getD (y + 1) 0 else acc)
      else acc

theorem goldScan_found_true (e15 e60 highs : List ℚ) (x : ℕ) (acc : ℚ) :
    (goldScan e15 e60 highs x true acc).1 = true := by
  induction x generalizing acc with
  | zero =>
    rw [goldScan]
    split <;> rfl
  | succ y ih =>
    rw [goldScan]
    split
    · exact ih _
    · rw [if_pos rfl]

theorem goldScan_skip (e15 e60 highs : List ℚ) (x : ℕ) (acc : ℚ)
    (h : ¬ e15.getD (x + 1) 0 > e60.getD (x + 1) 0) :
    goldScan e15 e60 highs (x + 1) false acc = goldScan e15 e60 highs x false acc := by
  conv_lhs => rw [goldScan]
  rw [if_neg h, if_neg (by decide : ¬ (false = true))]

theorem goldScan_fst (e15 e60 highs : List ℚ) (x : ℕ) (acc : ℚ) :
    (goldScan e15 e60 highs x false acc).1 = true ↔
      ∃ y, y ≤ x ∧ e15.getD y 0 > e60.getD y 0 := by
  induction x generalizing acc with
  | zero =>
    rw [goldScan]
    by_cases h : e15.getD 0 0 > e60.getD 0 0
    · rw [if_pos h]
      exact ⟨fun _ => ⟨0, Nat.le_refl 0, h⟩, fun _ => rfl⟩
    · rw [if_neg h]
      refine ⟨fun hh => absurd hh Bool.false_ne_true, ?_⟩
      rintro ⟨z, hz, hG⟩
      have hz0 : z = 0 := Nat.le_zero.mp hz
      rw [hz0] at hG
      exact absurd hG h
  | succ y ih =>
    by_cases h : e15.getD (y + 1) 0 > e60.getD (y + 1) 0
    · rw [goldScan, if_pos h]
      exact ⟨fun _ => ⟨y + 1, Nat.le_refl _, h⟩,
             fun _ => goldScan_found_true e15 e60 highs y _⟩
    · rw [goldScan_skip e15 e60 highs y acc h, ih]
      constructor
      · rintro ⟨z, hz, hG⟩
        exact ⟨z, Nat.le_succ_of_le hz, hG⟩
      · rintro ⟨z, hz, hG⟩
        refine ⟨z, ?_, hG⟩
        by_contra hzy
        have hz1 : z = y + 1 := by omega
        rw [hz1] at hG
        exact absurd hG h

theorem goldScan_true_eq (e15 e60 highs : List ℚ) (x : ℕ) (acc : ℚ) :
    goldScan e15 e60 highs x true acc = (true, zoneMaxFrom e15 e60 highs x acc) := by
  induction x generalizing acc with
  | zero =>
    rw [goldScan, zoneMaxFrom]
    by_cases h : e15.getD 0 0 > e60.getD 0 0
    · rw [if_pos h, if_pos h]
    · rw [if_neg h, if_neg h]
  | succ y ih =>
    rw [goldScan, zoneMaxFrom]
    by_cases h : e15.getD (y + 1) 0 > e60.getD (y + 1) 0
    · rw [if_pos h, if_pos h]
      exact ih _
    · rw [if_neg h, if_neg h, if_pos rfl]

theorem goldScan_eq_of_zone (e15 e60 highs : List ℚ) (s j : ℕ) (hj : j ≤ s)
    (hG : e15.getD j 0 > e60.getD j 0)
    (hskip : ∀ y, j < y → y ≤ s → ¬ e15.getD y 0 > e60.getD y 0) (acc : ℚ) :
    goldScan e15 e60 highs s false acc = (true, zoneMaxFrom e15 e60 highs j acc) := by
  induction s generalizing acc with
  | zero =>
    have hj0 : j = 0 := Nat.le_zero.mp hj
    subst hj0
    rw [goldScan, zoneMaxFrom, if_pos hG, if_pos hG]
  | succ s ih =>
    by_cases hgs : e15.getD (s + 1) 0 > e60.getD (s + 1) 0
    · have hjs : j = s + 1 := by
        by_contra hne
        exact hskip (s + 1) (Nat.lt_of_le_of_ne hj hne) (Nat.le_refl _) hgs
      subst hjs
      rw [goldScan, zoneMaxFrom, if_pos hgs, if_pos hgs]
      exact goldScan_true_eq e15 e60 highs s _
    · have hj2 : j ≤ s := by
        by_contra hgt
        have hjs : j = s + 1 := by omega
        rw [hjs] at hG
        exact absurd hG hgs
      rw [goldScan_skip e15 e60 highs s acc hgs]
      exact ih hj2 (fun y hy1 hy2 => hskip y hy1 (Nat.le_succ_of_le hy2)) acc

/-- Reduction of `analyze3mEntry` under trend `"UP"` with enough candles: the
result is determined by the fresh-cross test and the backward death scan. -/
theorem analyze3mEntry_up_eq (candles : List CandleData) (h100 : 100 ≤ candles.length) :
    analyze3mEntry candles "UP" =
      (if (calcEMAArray (candles.map (·.c)) 15).getD (candles.length - 1) 0 >
            (calcEMAArray (candles.map (·.c)) 60).getD (candles.length - 1) 0 ∧
          (calcEMAArray (candles.map (·.c)) 15).getD (candles.length - 1 - 1) 0 ≤
            (calcEMAArray (candles.map (·.c)) 60).getD (candles.length - 1 - 1) 0 then
        (if (deathScan (calcEMAArray (candles.map (·.c)) 15)
              (calcEMAArray (candles.map (·.c)) 60) (candles.map (·.l))
              (candles.length - 1 - 1) false
              ((candles.map (·.l)).getD (candles.length - 1) 0)).1 = true then
          ⟨true, "BUY",
            (deathScan (calcEMAArray (candles.map (·.c)) 15)
              (calcEMAArray (candles.map (·.c)) 60) (candles.map (·.l))
              (candles.length - 1 - 1) false
              ((candles.map (·.l)).getD (candles.length - 1) 0)).2,
            "1H上涨 + 3m死叉后金叉",
            if (calcEMAArray (candles.map (·.c)) 15).getD (candles.length - 1) 0 >
                (calcEMAArray (candles.map (·.c)) 60).getD (candles.length - 1) 0 then
              "金叉多头区域" else "死叉空头区域"⟩
        else
          ⟨false, "HOLD", 0, "1H上涨中，等待3m回调信号",
            if (calcEMAArray (candles.map (·.c)) 15).getD (candles.length - 1) 0 >
                (calcEMAArray (candles.map (·.c)) 60).getD (candles.length - 1) 0 then
              "金叉多头区域" else "死叉空头区域"⟩)
      else
        ⟨false, "HOLD", 0, "1H上涨中，等待3m回调信号",
          if (calcEMAArray (candles.map (·.c)) 15).getD (candles.length - 1) 0 >
              (calcEMAArray (candles.map (·.c)) 60).getD (candles.length - 1) 0 then
            "金叉多头区域" else "死叉空头区域"⟩) := by
  have hlen : ¬ candles.length < 100 := Nat.not_lt.mpr h100
  unfold analyze3mEntry
  rw [if_neg hlen]
  dsimp only
  simp only [List.length_map, String.reduceEq, reduceIte]
  by_cases hc :
      (calcEMAArray (candles.map (·.c)) 15).getD (candles.length - 1) 0 >
          (calcEMAArray (candles.map (·.c)) 60).getD (candles.length - 1) 0 ∧
        (calcEMAArray (candles.map (·.c)) 15).getD (candles.length - 1 - 1) 0 ≤
          (calcEMAArray (candles.map (·.c)) 60).getD (candles.length - 1 - 1) 0
  · rw [if_pos hc, if_pos hc]
    by_cases hf :
        (deathScan (calcEMAArray (candles.map (·.c)) 15)
          (calcEMAArray (candles.map (·.c)) 60) (candles.map (·.l))
          (candles.length - 1 - 1) false
          ((candles.map (·.l)).getD (candles.length - 1) 0)).1 = true
    · rw [if_pos hf, if_pos hf]
    · rw [if_neg hf, if_neg hf]
  · rw [if_neg hc, if_neg hc]

/-- Reduction of `analyze3mEntry` under trend `"DOWN"` with enough candles. -/
theorem analyze3mEntry_down_eq (candles : List CandleData) (h100 : 100 ≤ candles.length) :
    analyze3mEntry candles "DOWN" =
      (if (calcEMAArray (candles.map (·.c)) 15).getD (candles.length - 1) 0 <
            (calcEMAArray (candles.map (·.c)) 60).getD (candles.length - 1) 0 ∧
          (calcEMAArray (candles.map (·.c)) 15).getD (candles.length - 1 - 1) 0 ≥
            (calcEMAArray (candles.map (·.c)) 60).getD (candles.length - 1 - 1) 0 then
        (if (goldScan (calcEMAArray (candles.map (·.c)) 15)
              (calcEMAArray (candles.map (·.c)) 60) (candles.map (·.h))
              (candles.length - 1 - 1) false
              ((candles.map (·.h)).getD (candles.length - 1) 0)).1 = true then
          ⟨true, "SELL",
            (goldScan (calcEMAArray (candles.map (·.c)) 15)
              (calcEMAArray (candles.map (·.c)) 60) (candles.map (·.h))
              (candles.length - 1 - 1) false
              ((candles.map (·.h)).getD (candles.length - 1) 0)).2,
            "1H下跌 + 3m金叉后死叉",
            if (calcEMAArray (candles.map (·.c)) 15).getD (candles.length - 1) 0 >
                (calcEMAArray (candles.map (·.c)) 60).getD (candles.length - 1) 0 then
              "金叉多头区域" else "死叉空头区域"⟩
        else
          ⟨false, "HOLD", 0, "1H下跌中，等待3m反弹信号",
            if (calcEMAArray (candles.map (·.c)) 15).getD (candles.length - 1) 0 >
                (calcEMAArray (candles.map (·.c)) 60).getD (candles.length - 1) 0 then
              "金叉多头区域" else "死叉空头区域"⟩)
      else
        ⟨false, "HOLD", 0, "1H下跌中，等待3m反弹信号",
          if (calcEMAArray (candles.map (·.c)) 15).getD (candles.length - 1) 0 >
              (calcEMAArray (candles.map (·.c)) 60).getD (candles.length - 1) 0 then
            "金叉多头区域" else "死叉空头区域"⟩) := by
  have hlen : ¬ candles.length < 100 := Nat.not_lt.mpr h100
  unfold analyze3mEntry
  rw [if_neg hlen]
  dsimp only
  simp only [List.length_map, String.reduceEq, reduceIte]
  by_cases hc :
      (calcEMAArray (candles.map (·.c)) 15).getD (candles.length - 1) 0 <
          (calcEMAArray (candles.map (·.c)) 60).getD (candles.length - 1) 0 ∧
        (calcEMAArray (candles.map (·.c)) 15).getD (candles.length - 1 - 1) 0 ≥
          (calcEMAArray (candles.map (·.c)) 60).getD (candles.length - 1 - 1) 0
  · rw [if_pos hc, if_pos hc]
    by_cases hf :
        (goldScan (calcEMAArray (candles.map (·.c)) 15)
          (calcEMAArray (candles.map (·.c)) 60) (candles.map (·.h))
          (candles.length - 1 - 1) false
          ((candles.map (·.h)).getD (candles.length - 1) 0)).1 = true
    · rw [if_pos hf, if_pos hf]
    · rw [if_neg hf, if_neg hf]
  · rw [if_neg hc, if_neg hc]

/-- Reduction of `analyze3mEntry` under trend `"NEUTRAL"` with enough
candles. -/
theorem analyze3mEntry_neutral_eq (candles : List CandleData) (h100 : 100 ≤ candles.length) :
    analyze3mEntry candles "NEUTRAL" =
      ⟨false, "HOLD", 0, "1H趋势不明确，暂无入场",
        if (calcEMAArray (candles.map (·.c)) 15).getD (candles.length - 1) 0 >
            (calcEMAArray (candles.map (·.c)) 60).getD (candles.length - 1) 0 then
          "金叉多头区域" else "死叉空头区域"⟩ := by
  have hlen : ¬ candles.length < 100 := Nat.not_lt.mpr h100
  unfold analyze3mEntry
  rw [if_neg hlen]
  dsimp only
  simp only [List.length_map, String.reduceEq, reduceIte]

/-- C4 (amended): for every lower-timeframe series with at least 100 candles,
under trend UP the detector fires exactly when the last candle `i` is a fresh
golden cross (EMA15 > EMA60 at `i`, EMA15 ≤ EMA60 at `i-1`) and at least one
candle before `i` is a death candle (EMA15 < EMA60): candles at or above the
EMA60 line lying between the cross and the most recent death candle are
skipped by the backward scan rather than terminating it, and once the zone has
begun any non-death candle (a tie included) terminates it.  When the signal
fires, the action is BUY and the protective stop is the minimum of the low of
candle `i` and the lows of the contiguous death run extending downward from
the most recent death candle (`zoneMinFrom` at `Nat.findGreatest`).  The short
side under trend DOWN is the mirror image, and trend NEUTRAL never signals. -/
theorem analyze3mEntry_spec (candles : List CandleData) (h100 : 100 ≤ candles.length) :
    ((analyze3mEntry candles "UP").signal = true ↔
      ((calcEMAArray (candles.map (·.c)) 15).getD (candles.length - 1) 0 >
          (calcEMAArray (candles.map (·.c)) 60).getD (candles.length - 1) 0 ∧
        (calcEMAArray (candles.map (·.c)) 15).getD (candles.length - 1 - 1) 0 ≤
          (calcEMAArray (candles.map (·.c)) 60).getD (candles.length - 1 - 1) 0 ∧
        ∃ x ≤ candles.length - 1 - 1,
          (calcEMAArray (candles.map (·.c)) 15).getD x 0 <
            (calcEMAArray (candles.map (·.c)) 60).getD x 0)) ∧
    ((analyze3mEntry candles "UP").signal = true →
      (analyze3mEntry candles "UP").action = "BUY" ∧
      (analyze3mEntry candles "UP").sl =
        zoneMinFrom (calcEMAArray (candles.map (·.c)) 15)
          (calcEMAArray (candles.map (·.c)) 60) (candles.map (·.l))
          (Nat.findGreatest
            (fun x => (calcEMAArray (candles.map (·.c)) 15).getD x 0 <
              (calcEMAArray (candles.map (·.c)) 60).getD x 0)
            (candles.length - 1 - 1))
          ((candles.map (·.l)).getD (candles.length - 1) 0)) ∧
    ((analyze3mEntry candles "DOWN").signal = true ↔
      ((calcEMAArray (candles.map (·.c)) 15).getD (candles.length - 1) 0 <
          (calcEMAArray (candles.map (·.c)) 60).getD (candles.length - 1) 0 ∧
        (calcEMAArray (candles.map (·.c)) 15).getD (candles.length - 1 - 1) 0 ≥
          (calcEMAArray (candles.map (·.c)) 60).getD (candles.length - 1 - 1) 0 ∧
        ∃ x ≤ candles.length - 1 - 1,
          (calcEMAArray (candles.map (·.c)) 15).getD x 0 >
            (calcEMAArray (candles.map (·.c)) 60).getD x 0)) ∧
    ((analyze3mEntry candles "DOWN").signal = true →
      (analyze3mEntry candles "DOWN").action = "SELL" ∧
      (analyze3mEntry candles "DOWN").sl =
        zoneMaxFrom (calcEMAArray (candles.map (·.c)) 15)
          (calcEMAArray (candles.map (·.c)) 60) (candles.map (·.h))
          (Nat.findGreatest
            (fun x => (calcEMAArray (candles.map (·.c)) 15).getD x 0 >
              (calcEMAArray (candles.map (·.c)) 60).getD x 0)
            (candles.length - 1 - 1))
          ((candles.map (·.h)).getD (candles.length - 1) 0)) ∧
    (analyze3mEntry candles "NEUTRAL").signal = false := by
  refine ⟨?_, ?_, ?_, ?_, ?_⟩
  · rw [analyze3mEntry_up_eq candles h100]
    by_cases hc :
        (calcEMAArray (candles.map (·.c)) 15).getD (candles.length - 1) 0 >
            (calcEMAArray (candles.map (·.c)) 60).getD (candles.length - 1) 0 ∧
          (calcEMAArray (candles.map (·.c)) 15).getD (candles.length - 1 - 1) 0 ≤
            (calcEMAArray (candles.map (·.c)) 60).getD (candles.length - 1 - 1) 0
    · rw [if_pos hc]
      by_cases hf :
          (deathScan (calcEMAArray (candles.map (·.c)) 15)
            (calcEMAArray (candles.map (·.c)) 60) (candles.map (·.l))
            (candles.length - 1 - 1) false
            ((candles.map (·.l)).getD (candles.length - 1) 0)).1 = true
      · rw [if_pos hf]
        exact ⟨fun _ => ⟨hc.1, hc.2, (deathScan_fst _ _ _ _ _).mp hf⟩, fun _ => rfl⟩
      · rw [if_neg hf]
        exact ⟨fun hh => absurd hh Bool.false_ne_true,
               fun hh => absurd ((deathScan_fst _ _ _ _ _).mpr hh.2.2) hf⟩
    · rw [if_neg hc]
      exact ⟨fun hh => absurd hh Bool.false_ne_true,
             fun hh => absurd ⟨hh.1, hh.2.1⟩ hc⟩
  · intro hsig
    rw [analyze3mEntry_up_eq candles h100] at hsig ⊢
    by_cases hc :
        (calcEMAArray (candles.map (·.c)) 15).getD (candles.length - 1) 0 >
            (calcEMAArray (candles.map (·.c)) 60).getD (candles.length - 1) 0 ∧
          (calcEMAArray (candles.map (·.c)) 15).getD (candles.length - 1 - 1) 0 ≤
            (calcEMAArray (candles.map (·.c)) 60).getD (candles.length - 1 - 1) 0
    · rw [if_pos hc] at hsig ⊢
      by_cases hf :
          (deathScan (calcEMAArray (candles.map (·.c)) 15)
            (calcEMAArray (candles.map (·.c)) 60) (candles.map (·.l))
            (candles.length - 1 - 1) false
            ((candles.map (·.l)).getD (candles.length - 1) 0)).1 = true
      · rw [if_pos hf] at hsig ⊢
        refine ⟨rfl, ?_⟩
        obtain ⟨x0, hx0le, hx0D⟩ := (deathScan_fst _ _ _ _ _).mp hf
        have hDj : (fun x => (calcEMAArray (candles.map (·.c)) 15).getD x 0 <
            (calcEMAArray (candles.map (·.c)) 60).getD x 0)
            (Nat.findGreatest
              (fun x => (calcEMAArray (candles.map (·.c)) 15).getD x 0 <
                (calcEMAArray (candles.map (·.c)) 60).getD x 0)
              (candles.length - 1 - 1)) :=
          @Nat.findGreatest_spec x0
            (fun x => (calcEMAArray (candles.map (·.c)) 15).getD x 0 <
              (calcEMAArray (candles.map (·.c)) 60).getD x 0) _
            (candles.length - 1 - 1) hx0le hx0D
        have hjle : Nat.findGreatest
            (fun x => (calcEMAArray (candles.map (·.c)) 15).getD x 0 <
              (calcEMAArray (candles.map (·.c)) 60).getD x 0)
            (candles.length - 1 - 1) ≤ candles.length - 1 - 1 :=
          Nat.findGreatest_le _
        have hskip : ∀ y, Nat.findGreatest
            (fun x => (calcEMAArray (candles.map (·.c)) 15).getD x 0 <
              (calcEMAArray (candles.map (·.c)) 60).getD x 0)
            (candles.length - 1 - 1) < y → y ≤ candles.length - 1 - 1 →
            ¬ (calcEMAArray (candles.map (·.c)) 15).getD y 0 <
              (calcEMAArray (candles.map (·.c)) 60).getD y 0 :=
          fun y h1 h2 => Nat.findGreatest_is_greatest h1 h2
        rw [deathScan_eq_of_zone _ _ _ (candles.length - 1 - 1) _ hjle hDj hskip _]
      · rw [if_neg hf] at hsig
        exact absurd hsig Bool.false_ne_true
    · rw [if_neg hc] at hsig
      exact absurd hsig Bool.false_ne_true
  · rw [analyze3mEntry_down_eq candles h100]
    by_cases hc :
        (calcEMAArray (candles.map (·.c)) 15).getD (candles.length - 1) 0 <
            (calcEMAArray (candles.map (·.c)) 60).getD (candles.length - 1) 0 ∧
          (calcEMAArray (candles.map (·.c)) 15).getD (candles.length - 1 - 1) 0 ≥
            (calcEMAArray (candles.map (·.c)) 60).getD (candles.length - 1 - 1) 0
    · rw [if_pos hc]
      by_cases hf :
          (goldScan (calcEMAArray (candles.map (·.c)) 15)
            (calcEMAArray (candles.map (·.c)) 60) (candles.map (·.h))
            (candles.length - 1 - 1) false
            ((candles.map (·.h)).getD (candles.length - 1) 0)).1 = true
      · rw [if_pos hf]
        exact ⟨fun _ => ⟨hc.1, hc.2, (goldScan_fst _ _ _ _ _).mp hf⟩, fun _ => rfl⟩
      · rw [if_neg hf]
        exact ⟨fun hh => absurd hh Bool.false_ne_true,
               fun hh => absurd ((goldScan_fst _ _ _ _ _).mpr hh.2.2) hf⟩
    · rw [if_neg hc]
      exact ⟨fun hh => absurd hh Bool.false_ne_true,
             fun hh => absurd ⟨hh.1, hh.2.1⟩ hc⟩
  · intro hsig
    rw [analyze3mEntry_down_eq candles h100] at hsig ⊢
    by_cases hc :
        (calcEMAArray (candles.map (·.c)) 15).getD (candles.length - 1) 0 <
            (calcEMAArray (candles.map (·.c)) 60).getD (candles.length - 1) 0 ∧
          (calcEMAArray (candles.map (·.c)) 15).getD (candles.length - 1 - 1) 0 ≥
            (calcEMAArray (candles.map (·.c)) 60).getD (candles.length - 1 - 1) 0
    · rw [if_pos hc] at hsig ⊢
      by_cases hf :
          (goldScan (calcEMAArray (candles.map (·.c)) 15)
            (calcEMAArray (candles.map (·.c)) 60) (candles.map (·.h))
            (candles.length - 1 - 1) false
            ((candles.map (·.h)).getD (candles.length - 1) 0)).1 = true
      · rw [if_pos hf] at hsig ⊢
        refine ⟨rfl, ?_⟩
        obtain ⟨x0, hx0le, hx0G⟩ := (goldScan_fst _ _ _ _ _).mp hf
        have hGj : (fun x => (calcEMAArray (candles.map (·.c)) 15).getD x 0 >
            (calcEMAArray (candles.map (·.c)) 60).getD x 0)
            (Nat.findGreatest
              (fun x => (calcEMAArray (candles.map (·.c)) 15).getD x 0 >
                (calcEMAArray (candles.map (·.c)) 60).getD x 0)
              (candles.length - 1 - 1)) :=
          @Nat.findGreatest_spec x0
            (fun x => (calcEMAArray (candles.map (·.c)) 15).getD x 0 >
              (calcEMAArray (candles.map (·.c)) 60).getD x 0) _
            (candles.length - 1 - 1) hx0le hx0G
        have hjle : Nat.findGreatest
            (fun x => (calcEMAArray (candles.map (·.c)) 15).getD x 0 >
              (calcEMAArray (candles.map (·.c)) 60).getD x 0)
            (candles.length - 1 - 1) ≤ candles.length - 1 - 1 :=
          Nat.findGreatest_le _
        have hskip : ∀ y, Nat.findGreatest
            (fun x => (calcEMAArray (candles.map (·.c)) 15).getD x 0 >
              (calcEMAArray (candles.map (·.c)) 60).getD x 0)
            (candles.length - 1 - 1) < y → y ≤ candles.length - 1 - 1 →
            ¬ (calcEMAArray (candles.map (·.c)) 15).getD y 0 >
              (calcEMAArray (candles.map (·.c)) 60).getD y 0 :=
          fun y h1 h2 => Nat.findGreatest_is_greatest h1 h2
        rw [goldScan_eq_of_zone _ _ _ (candles.length - 1 - 1) _ hjle hGj hskip _]
      · rw [if_neg hf] at hsig
        exact absurd hsig Bool.false_ne_true
    · rw [if_neg hc] at hsig
      exact absurd hsig Bool.false_ne_true
  · rw [analyze3mEntry_neutral_eq candles h100]

/-- 3m closes producing a fresh golden cross at index 99 with a death zone at
indices 1–98: 100, then 98 × 50, then 1000. -/
def buyCloses3m : List ℚ := 100 :: (List.replicate 98 50 ++ [1000])

/-- 3m candle list on which the converged detector triggers BUY. -/
def buy3mCandles : List CandleData := buyCloses3m.map (mkFlatCandle 0)

theorem analyze3mEntry_spec_witness :
    100 ≤ buy3mCandles.length ∧ (analyze3mEntry buy3mCandles "UP").signal = true :=
  ⟨by decide,
   ((analyze3mEntry_spec buy3mCandles (by decide)).1).mpr
     ⟨by decide, by decide,
      ⟨50, by decide⟩⟩⟩

/-- Prefix of the counterexample 3m closes: index 0 at 100, indices 1–10 at 50
(producing death candles), indices 11–97 at 150 (producing gold candles at the
top of the range). -/
def cexPrefixCloses3m : List ℚ := 100 :: (List.replicate 10 50 ++ List.replicate 87 150)

/-- The unique close price that makes EMA15 and EMA60 tie exactly at index 98,
solved from the two EMA recurrences: with `a = EMA15[97]` and `b = EMA60[97]`
over `cexPrefixCloses3m`, the tie at the next step requires the next close to
be `(472*b - 427*a)/45`, written out here as an exact rational literal (the
tie itself is verified exactly by the counterexample theorem, so no trust in
this provenance is needed). -/
def cexTieClose : ℚ :=
  (33782744386704201304748615316522390124119445142930856831793285343719967493755207080453766189536740881867817415200089848853981294210415604608489740077184949395377099230262444015415395145645402229585824306744753994693894125071385765165257749072949061422727362008075 : ℚ) /
  299014837149033099292005719850055473014765161355827327163717266506611224099632318309844731682203216986813887132309164300680689459154144658831239266654143686460789106299694753094709342743216843016082093004352191572462603259844463990251120989755359052565057634304

/-- Counterexample 3m closes: the prefix, the exact-tie close at index 98, and
a jump to 1000 at index 99 producing a fresh golden cross whose previous
candle ties exactly. -/
def cexCloses3m : List ℚ := cexPrefixCloses3m ++ [cexTieClose, 1000]

/-- Counterexample 3m candle list. -/
def cex3mCandles : List CandleData := cexCloses3m.map (mkFlatCandle 0)

/-- Follows the spec\x27s words (claim C4): scanning backward, the scan
terminates at the first candle whose EMA relationship is on the cross\x27s side
(EMA15 > EMA60); a long signal requires a death candle (EMA15 < EMA60) reached
before that termination.  A tie (EMA15 = EMA60) is neither, so the scan steps
past it. -/
def specScanDeath (ema15 ema60 : List ℚ) : ℕ → Bool
  | 0 => decide (ema15.getD 0 0 < ema60.getD 0 0)
  | x + 1 =>
      if ema15.getD (x + 1) 0 < ema60.getD (x + 1) 0 then true
      else if ema15.getD (x + 1) 0 > ema60.getD (x + 1) 0 then false
      else specScanDeath ema15 ema60 x

/-- Follows the spec\x27s words (claim C4): the long entry fires exactly on a
fresh golden cross at the last candle that is preceded by a contiguous death
zone, with the backward scan from `i-1` terminating at the first candle whose
EMA relationship flips back to the cross\x27s side. -/
def specLongTrigger (candles : List CandleData) : Bool :=
  decide (100 ≤ candles.length) &&
  decide ((calcEMAArray (candles.map (·.c)) 15).getD (candles.length - 1) 0 >
    (calcEMAArray (candles.map (·.c)) 60).getD (candles.length - 1) 0) &&
  decide ((calcEMAArray (candles.map (·.c)) 15).getD (candles.length - 1 - 1) 0 ≤
    (calcEMAArray (candles.map (·.c)) 60).getD (candles.length - 1 - 1) 0) &&
  specScanDeath (calcEMAArray (candles.map (·.c)) 15)
    (calcEMAArray (candles.map (·.c)) 60) (candles.length - 1 - 1)

/-- C4 counterexample: on `cex3mCandles` the EMAs tie exactly at index 98 and
index 97 is strictly gold, so the backward scan described by the claim
terminates at index 97 before reaching any death candle and produces no
signal (`specLongTrigger` is `false`), while the code skips the gold candles
(its scan only terminates once the zone has begun), reaches the death candles
at indices 1–13, and does trigger the BUY signal. -/
theorem analyze3mEntry_cex :
    (analyze3mEntry cex3mCandles "UP").signal = true ∧
    specLongTrigger cex3mCandles = false ∧
    (calcEMAArray (cex3mCandles.map (·.c)) 15).getD 98 0 =
      (calcEMAArray (cex3mCandles.map (·.c)) 60).getD 98 0 ∧
    (calcEMAArray (cex3mCandles.map (·.c)) 15).getD 97 0 >
      (calcEMAArray (cex3mCandles.map (·.c)) 60).getD 97 0 ∧
    (calcEMAArray (cex3mCandles.map (·.c)) 15).getD 5 0 <
      (calcEMAArray (cex3mCandles.map (·.c)) 60).getD 5 0 :=
  ⟨by decide,
   by decide,
   le_antisymm
     (le_of_not_lt (by decide))
     (le_of_not_lt (by decide)),
   by decide,
   by decide⟩

/-- Position fields consumed by the strategy (`PositionData` in `types.ts`),
numeric strings parsed; the optional `slTriggerPx` is `none` when absent or
empty (the code then falls back to `0` via `p.slTriggerPx || "0"`). -/
structure PositionData where
  instId : String
  posSide : String
  pos : ℚ
  avgPx : ℚ
  upl : ℚ
  slTriggerPx : Option ℚ
  deriving DecidableEq, Repr

/-- `Math.min(...xs)` over a spread: `none` models the empty spread, whose JS
value is `+Infinity` (greater than every candidate and never below the current
price, so every guard comparing it behaves as the `none` case here). -/
def jsMinSpread : List ℚ → Option ℚ
  | [] => none
  | x :: xs => some (xs.foldl min x)

/-- `Math.max(...xs)` over a spread: `none` models the empty spread (`-Infinity`). -/
def jsMaxSpread : List ℚ → Option ℚ
  | [] => none
  | x :: xs => some (xs.foldl max x)

/-- `Number.prototype.toFixed(2)`, idealized over exact rationals as rounding
to the nearest hundredth (ties up; all prices in scope are positive, where JS
decimal rounding agrees), returning the numeric value of the formatted
string. -/
def toFixed2 (q : ℚ) : ℚ := (round (q * 100) : ℤ) / 100

/-- `FEE_BUFFER` from the converged `getTradingDecision`: 0.06% per side,
0.12% round trip. -/
def FEE_BUFFER : ℚ := 0.0012

/-- Lines 726–739 of the converged module (long side): the technical trail is
the minimum low of the recent candles times 0.9995; once the current price is
strictly above the fee-adjusted breakeven `avgPx * (1 + FEE_BUFFER)`, the
candidate is raised to the max of itself and the breakeven. -/
def longTargetSL (entryPx currentPrice : ℚ) (recent : List CandleData) : Option ℚ :=
  let breakEvenPrice := entryPx * (1 + FEE_BUFFER)
  let t0 := (jsMinSpread (recent.map (·.l))).map (· * 0.9995)
  if currentPrice > breakEvenPrice then t0.map (fun t => max t breakEvenPrice) else t0

/-- Lines 747–759 of the converged module (short side): mirror image with the
maximum high times 1.0005 and breakeven `avgPx * (1 - FEE_BUFFER)` combined by
`min`. -/
def shortTargetSL (entryPx currentPrice : ℚ) (recent : List CandleData) : Option ℚ :=
  let breakEvenPrice := entryPx * (1 - FEE_BUFFER)
  let t0 := (jsMaxSpread (recent.map (·.h))).map (· * 1.0005)
  if currentPrice < breakEvenPrice then t0.map (fun t => min t breakEvenPrice) else t0

/-- Lines 741–766 of the converged module: the execution guard.  Returns
`(shouldUpdate, newSL)`.  Long side: accept only a candidate strictly above
the old stop and strictly below the current price.  Short side: accept only a
candidate strictly below the old stop (or with no old stop, `oldSL = 0`) and
strictly above the current price.  A `none` candidate (empty recent window,
i.e. an infinite JS trail) always fails the price-side comparison, exactly as
`Infinity < price` / `-Infinity > price` do. -/
def trailDecision (isLong : Bool) (oldSL entryPx currentPrice : ℚ)
    (recent : List CandleData) : Bool × ℚ :=
  if isLong then
    match longTargetSL entryPx currentPrice recent with
    | some t => if t > oldSL ∧ t < currentPrice then (true, t) else (false, oldSL)
    | none => (false, oldSL)
  else
    match shortTargetSL entryPx currentPrice recent with
    | some t => if (oldSL = 0 ∨ t < oldSL) ∧ t > currentPrice then (true, t) else (false, oldSL)
    | none => (false, oldSL)

/-- Outcome of the open-position decision block: the action string, the size
string, and the stop-loss price to attach (`none` models the empty string, no
stop instruction; the numeric value is kept unformatted here, `toFixed2`
being applied where the string is written into the decision). -/
structure RiskOutcome where
  finalAction : String
  finalSize : String
  sl : Option ℚ
  deriving DecidableEq, Repr


/-- Step 1 of the open-position logic (lines 697–699): reversal exit.  `isLong`
is `p.posSide === 'long'`. -/
def reversalAction (trendDir : String) (isLong : Bool) : String :=
  if trendDir = "UP" ∧ ¬ (isLong = true) then "CLOSE"
  else if trendDir = "DOWN" ∧ isLong = true then "CLOSE"
  else "HOLD"

/-- Step 2 of the open-position logic (lines 701–710): pyramiding, only
reachable from HOLD; `upl >= totalEquity * 0.05` adds 5% on the position
side. Returns (finalAction, finalSize). -/
def rollingStep (a1 : String) (isLong : Bool) (totalEquity upl : ℚ) : String × String :=
  if a1 = "HOLD" ∧ totalEquity * 0.05 ≤ upl then
    ((if isLong = true then "BUY" else "SELL"), "5%")
  else (a1, "0")

/-- Lines 689–777 of the converged `getTradingDecision` (the `hasPosition`
branch): reversal exit, then pyramiding (only from HOLD), then the trailing
stop (evaluated for HOLD/BUY/SELL; `finalAction.includes("BUY"/"SELL")` is
equality here because the action at that point is one of HOLD/CLOSE/BUY/SELL).
`recent` is `candles3m.slice(-5)`; the missing-or-empty `slTriggerPx` falls
back to `0` exactly as `parseFloat(p.slTriggerPx || "0")` does. -/
def evaluateRisk (trendDir : String) (p : PositionData) (totalEquity currentPrice : ℚ)
    (candles3m : List CandleData) : RiskOutcome :=
  let isLong : Bool := p.posSide = "long"
  let act2 := rollingStep (reversalAction trendDir isLong) isLong totalEquity p.upl
  if act2.1 = "HOLD" ∨ act2.1 = "BUY" ∨ act2.1 = "SELL" then
    let recent := candles3m.drop (candles3m.length - 5)
    let td := trailDecision isLong (p.slTriggerPx.getD 0) p.avgPx currentPrice recent
    if td.1 = true ∧ act2.1 = "HOLD" then ⟨"UPDATE_TPSL", act2.2, some td.2⟩
    else if td.1 = true ∧ (act2.1 = "BUY" ∨ act2.1 = "SELL") then ⟨act2.1, act2.2, some td.2⟩
    else ⟨act2.1, act2.2, none⟩
  else ⟨act2.1, act2.2, none⟩

/-- The action after the reversal and pyramiding steps is always one of
HOLD/CLOSE/BUY/SELL, never UPDATE_TPSL. -/
theorem rollingStep_ne_update (trendDir : String) (isLong : Bool) (teq upl : ℚ) :
    (rollingStep (reversalAction trendDir isLong) isLong teq upl).1 ≠ "UPDATE_TPSL" := by
  unfold rollingStep reversalAction
  split_ifs <;> simp

/-- Guard characterisation of `trailDecision`: when it accepts, the accepted
stop satisfies the long (strictly above the old stop, strictly below price) or
short (strictly below the old stop or old stop unset, strictly above price)
monotonicity-and-side guard and equals the respective target candidate; when
it rejects, the stop is left at the old value. -/
theorem trailDecision_spec (b : Bool) (oldSL entryPx currentPrice : ℚ)
    (recent : List CandleData) :
    ((trailDecision b oldSL entryPx currentPrice recent).1 = true →
      (b = true →
        oldSL < (trailDecision b oldSL entryPx currentPrice recent).2 ∧
        (trailDecision b oldSL entryPx currentPrice recent).2 < currentPrice ∧
        longTargetSL entryPx currentPrice recent =
          some (trailDecision b oldSL entryPx currentPrice recent).2) ∧
      (b = false →
        (oldSL = 0 ∨ (trailDecision b oldSL entryPx currentPrice recent).2 < oldSL) ∧
        currentPrice < (trailDecision b oldSL entryPx currentPrice recent).2 ∧
        shortTargetSL entryPx currentPrice recent =
          some (trailDecision b oldSL entryPx currentPrice recent).2)) ∧
    ((trailDecision b oldSL entryPx currentPrice recent).1 = false →
      (trailDecision b oldSL entryPx currentPrice recent).2 = oldSL) := by
  cases b with
  | true =>
    unfold trailDecision
    rw [if_pos rfl]
    cases hm : longTargetSL entryPx currentPrice recent with
    | none =>
      dsimp only
      exact ⟨fun hh => Bool.noConfusion hh, fun _ => rfl⟩
    | some t =>
      dsimp only
      by_cases hg : t > oldSL ∧ t < currentPrice
      · rw [if_pos hg]
        exact ⟨fun _ => ⟨fun _ => ⟨hg.1, hg.2, rfl⟩, fun hb => Bool.noConfusion hb⟩,
               fun hh => Bool.noConfusion hh⟩
      · rw [if_neg hg]
        exact ⟨fun hh => Bool.noConfusion hh, fun _ => rfl⟩
  | false =>
    unfold trailDecision
    rw [if_neg (by decide : ¬ (false = true))]
    cases hm : shortTargetSL entryPx currentPrice recent with
    | none =>
      dsimp only
      exact ⟨fun hh => Bool.noConfusion hh, fun _ => rfl⟩
    | some t =>
      dsimp only
      by_cases hg : (oldSL = 0 ∨ t < oldSL) ∧ t > currentPrice
      · rw [if_pos hg]
        exact ⟨fun _ => ⟨fun hb => Bool.noConfusion hb,
                 fun _ => ⟨hg.1, hg.2, rfl⟩⟩,
               fun hh => Bool.noConfusion hh⟩
      · rw [if_neg hg]
        exact ⟨fun hh => Bool.noConfusion hh, fun _ => rfl⟩

/-- Whenever the risk evaluation emits a stop price, that stop came from an
accepting `trailDecision` run on the last five candles. -/
theorem evaluateRisk_sl_some (trendDir : String) (p : PositionData)
    (totalEquity currentPrice : ℚ) (candles3m : List CandleData) (s : ℚ)
    (h : (evaluateRisk trendDir p totalEquity currentPrice candles3m).sl = some s) :
    (trailDecision (decide (p.posSide = "long")) (p.slTriggerPx.getD 0) p.avgPx currentPrice
        (candles3m.drop (candles3m.length - 5))).1 = true ∧
    (trailDecision (decide (p.posSide = "long")) (p.slTriggerPx.getD 0) p.avgPx currentPrice
        (candles3m.drop (candles3m.length - 5))).2 = s := by
  unfold evaluateRisk at h
  dsimp only at h
  split at h
  · split at h
    · next hcond =>
      exact ⟨hcond.1, by simpa using h⟩
    · split at h
      · next hcond =>
        exact ⟨hcond.1, by simpa using h⟩
      · simp at h
  · simp at h

/-- The risk evaluation emits UPDATE_TPSL only together with a stop price. -/
theorem evaluateRisk_update_or (trendDir : String) (p : PositionData)
    (totalEquity currentPrice : ℚ) (candles3m : List CandleData) :
    (evaluateRisk trendDir p totalEquity currentPrice candles3m).sl ≠ none ∨
    (evaluateRisk trendDir p totalEquity currentPrice candles3m).finalAction ≠ "UPDATE_TPSL" := by
  unfold evaluateRisk
  dsimp only
  split
  · split
    · left
      simp
    · split
      · right
        exact rollingStep_ne_update trendDir (decide (p.posSide = "long")) totalEquity p.upl
      · right
        exact rollingStep_ne_update trendDir (decide (p.posSide = "long")) totalEquity p.upl
  · right
    exact rollingStep_ne_update trendDir (decide (p.posSide = "long")) totalEquity p.upl

/-- C3: in every risk evaluation with an open position, a proposed stop is
emitted only when it improves strictly on the existing committed stop
(strictly greater for a long position; strictly smaller, or the existing stop
unset at 0, for a short position) and lies strictly on the correct side of the
current price (below it for long, above it for short); when no stop is
emitted, the action is never UPDATE_TPSL, so the exchange-side stop is left
unchanged. -/
theorem stop_ratchet_guard (trendDir : String) (p : PositionData)
    (totalEquity currentPrice : ℚ) (candles3m : List CandleData) :
    (∀ s, (evaluateRisk trendDir p totalEquity currentPrice candles3m).sl = some s →
      (p.posSide = "long" → p.slTriggerPx.getD 0 < s ∧ s < currentPrice) ∧
      (p.posSide ≠ "long" →
        (p.slTriggerPx.getD 0 = 0 ∨ s < p.slTriggerPx.getD 0) ∧ currentPrice < s)) ∧
    ((evaluateRisk trendDir p totalEquity currentPrice candles3m).sl = none →
      (evaluateRisk trendDir p totalEquity currentPrice candles3m).finalAction ≠ "UPDATE_TPSL") := by
  constructor
  · intro s hs
    obtain ⟨h1, h2⟩ := evaluateRisk_sl_some trendDir p totalEquity currentPrice candles3m s hs
    constructor
    · intro hlg
      have hb : decide (p.posSide = "long") = true := decide_eq_true hlg
      have hmain := ((trailDecision_spec (decide (p.posSide = "long")) (p.slTriggerPx.getD 0)
        p.avgPx currentPrice (candles3m.drop (candles3m.length - 5))).1 h1).1 hb
      rw [h2] at hmain
      exact ⟨hmain.1, hmain.2.1⟩
    · intro hlg
      have hb : decide (p.posSide = "long") = false := decide_eq_false hlg
      have hmain := ((trailDecision_spec (decide (p.posSide = "long")) (p.slTriggerPx.getD 0)
        p.avgPx currentPrice (candles3m.drop (candles3m.length - 5))).1 h1).2 hb
      rw [h2] at hmain
      exact ⟨hmain.1, hmain.2.1⟩
  · intro hnone
    rcases evaluateRisk_update_or trendDir p totalEquity currentPrice candles3m with hne | hne
    · exact absurd hnone hne
    · exact hne

theorem stop_ratchet_guard_witness :
    (evaluateRisk "UP" ⟨"ETH-USDT-SWAP", "long", 1, 100, 0, none⟩ 1000 110
      [mkFlatCandle 0 105]).sl = some (104.9475 : ℚ) ∧
    ((0 : ℚ) < 104.9475 ∧ (104.9475 : ℚ) < 110) :=
  ⟨by decide,
   by
    have h := ((stop_ratchet_guard "UP" ⟨"ETH-USDT-SWAP", "long", 1, 100, 0, none⟩ 1000 110
      [mkFlatCandle 0 105]).1 (104.9475 : ℚ)
      (by decide)).1 rfl
    exact h⟩

/-- C2: the reversal-exit rule has strict priority — whenever the
higher-timeframe trend opposes the open position side (UP against a short, or
DOWN against a long), the risk evaluation returns CLOSE, never the pyramiding
BUY/SELL add and never UPDATE_TPSL. -/
theorem reversal_exit_priority (trendDir : String) (p : PositionData)
    (totalEquity currentPrice : ℚ) (candles3m : List CandleData)
    (h : (trendDir = "UP" ∧ p.posSide = "short") ∨
         (trendDir = "DOWN" ∧ p.posSide = "long")) :
    (evaluateRisk trendDir p totalEquity currentPrice candles3m).finalAction = "CLOSE" := by
  have hact : rollingStep (reversalAction trendDir (decide (p.posSide = "long")))
      (decide (p.posSide = "long")) totalEquity p.upl = ("CLOSE", "0") := by
    rcases h with ⟨ht, hs⟩ | ⟨ht, hs⟩ <;>
      simp [rollingStep, reversalAction, ht, hs]
  unfold evaluateRisk
  dsimp only
  rw [hact]
  simp

theorem reversal_exit_priority_witness :
    (("UP" = "UP" ∧ "short" = "short") ∨ ("UP" = "DOWN" ∧ "short" = "long")) ∧
    (evaluateRisk "UP" ⟨"ETH-USDT-SWAP", "short", 2, 3000, 500, none⟩ 1000 3100
      []).finalAction = "CLOSE" :=
  ⟨Or.inl ⟨rfl, rfl⟩,
   reversal_exit_priority "UP" ⟨"ETH-USDT-SWAP", "short", 2, 3000, 500, none⟩ 1000 3100 []
     (Or.inl ⟨rfl, rfl⟩)⟩

/-- C6: in the trailing evaluation, once the current price has strictly
cleared the fee-adjusted breakeven (entry × (1 ± 0.0012)), the candidate stop
handed to the monotonicity guard is the more conservative of the technical
trail and the breakeven — max(trail, breakeven) for a long, min(trail,
breakeven) for a short, the trail being min-low × 0.9995 resp. max-high ×
1.0005 of the recent five candles; and every stop the risk evaluation emits
is exactly that candidate. -/
theorem breakeven_trail_combination :
    (∀ (entryPx currentPrice m : ℚ) (recent : List CandleData),
      jsMinSpread (recent.map (·.l)) = some m →
      entryPx * (1 + FEE_BUFFER) < currentPrice →
      longTargetSL entryPx currentPrice recent =
        some (max (m * 0.9995) (entryPx * (1 + FEE_BUFFER)))) ∧
    (∀ (entryPx currentPrice M : ℚ) (recent : List CandleData),
      jsMaxSpread (recent.map (·.h)) = some M →
      currentPrice < entryPx * (1 - FEE_BUFFER) →
      shortTargetSL entryPx currentPrice recent =
        some (min (M * 1.0005) (entryPx * (1 - FEE_BUFFER)))) ∧
    (∀ (trendDir : String) (p : PositionData) (teq px : ℚ) (cs : List CandleData) (s : ℚ),
      (evaluateRisk trendDir p teq px cs).sl = some s →
      (p.posSide = "long" →
        longTargetSL p.avgPx px (cs.drop (cs.length - 5)) = some s) ∧
      (p.posSide ≠ "long" →
        shortTargetSL p.avgPx px (cs.drop (cs.length - 5)) = some s)) := by
  refine ⟨?_, ?_, ?_⟩
  · intro entryPx currentPrice m recent hm hbe
    unfold longTargetSL
    dsimp only
    rw [hm, if_pos hbe]
    rfl
  · intro entryPx currentPrice M recent hM hbe
    unfold shortTargetSL
    dsimp only
    rw [hM, if_pos hbe]
    rfl
  · intro trendDir p teq px cs s hs
    obtain ⟨h1, h2⟩ := evaluateRisk_sl_some trendDir p teq px cs s hs
    constructor
    · intro hlg
      have hb : decide (p.posSide = "long") = true := decide_eq_true hlg
      have hmain := ((trailDecision_spec (decide (p.posSide = "long")) (p.slTriggerPx.getD 0)
        p.avgPx px (cs.drop (cs.length - 5))).1 h1).1 hb
      rw [h2] at hmain
      exact hmain.2.2
    · intro hlg
      have hb : decide (p.posSide = "long") = false := decide_eq_false hlg
      have hmain := ((trailDecision_spec (decide (p.posSide = "long")) (p.slTriggerPx.getD 0)
        p.avgPx px (cs.drop (cs.length - 5))).1 h1).2 hb
      rw [h2] at hmain
      exact hmain.2.2

theorem breakeven_trail_combination_witness :
    jsMinSpread ([mkFlatCandle 0 105].map (·.l)) = some 105 ∧
    (100 : ℚ) * (1 + FEE_BUFFER) < 110 ∧
    longTargetSL 100 110 [mkFlatCandle 0 105] =
      some (max ((105 : ℚ) * 0.9995) ((100 : ℚ) * (1 + FEE_BUFFER))) :=
  ⟨by decide, by decide,
   breakeven_trail_combination.1 100 110 105 [mkFlatCandle 0 105]
     (by decide) (by decide)⟩

/-- Ticker as consumed by the strategy; only the `last` price field is read
(`parseFloat(marketData.ticker?.last || "0")`). -/
structure TickerData where
  last : ℚ
  deriving DecidableEq, Repr

/-- The market-data fields consumed by `getTradingDecision`. -/
structure MarketDataCollection where
  ticker : Option TickerData
  candles1H : List CandleData
  candles3m : List CandleData
  deriving DecidableEq, Repr

/-- Account balance; only `totalEq` is read by the converged module. -/
structure AccountBalance where
  totalEq : ℚ
  deriving DecidableEq, Repr

structure AccountContext where
  balance : AccountBalance
  positions : List PositionData
  deriving DecidableEq, Repr

/-- A JS `number` at the one point where the code can produce a non-finite
value: the contract-size division.  Finite values are idealized as exact
rationals. -/
inductive JsNum where
  | fin (q : ℚ)
  | posInf
  | negInf
  | nan
  deriving DecidableEq, Repr

/-- JS division: division by zero yields `NaN` for a zero numerator and
`±Infinity` otherwise (the rational `0` models JS `+0`). -/
def jsDiv (a b : ℚ) : JsNum :=
  if b = 0 then (if a = 0 then .nan else if 0 < a then .posInf else .negInf)
  else .fin (a / b)

/-- `Math.max` of a possibly non-finite number and a finite bound. -/
def jsMax (n : JsNum) (c : ℚ) : JsNum :=
  match n with
  | .fin q => .fin (max q c)
  | .posInf => .posInf
  | .negInf => .fin c
  | .nan => .nan

/-- `toFixed(2)` lifted to `JsNum` (`Infinity.toFixed(2)` is `"Infinity"`,
`NaN.toFixed(2)` is `"NaN"`: non-finite values pass through). -/
def jsToFixed2 : JsNum → JsNum
  | .fin q => .fin (toFixed2 q)
  | x => x

/-- The inner `trading_decision` object of `AIDecision` (`types.ts`), numeric
string fields modelled by their values; `stop_loss` is `none` for the empty
string. -/
structure TradingDecisionFields where
  action : String
  confidence : String
  position_size : String
  leverage : ℚ
  profit_target : String
  stop_loss : Option ℚ
  invalidation_condition : String
  deriving DecidableEq, Repr

/-- `AIDecision` from `types.ts` (the fields produced by the strategy module). -/
structure AIDecision where
  stage_analysis : String
  market_assessment : String
  hot_events_overview : String
  eth_analysis : String
  trading_decision : TradingDecisionFields
  reasoning : String
  action : String
  size : JsNum
  leverage : ℚ
  deriving DecidableEq, Repr

/-- The narrative keys the module reads out of the annotator content when the
content parses as JSON (`aiJson.stage_analysis`, …,
`aiJson.trading_decision?.invalidation_condition`); `none` models an absent
key. -/
structure AnnotatorJson where
  stage_analysis : Option String
  market_assessment : Option String
  hot_events_overview : Option String
  eth_analysis : Option String
  reasoning : Option String
  invalidation_condition : Option String
  deriving DecidableEq, Repr

/-- Outcome of the external `callDeepSeek` boundary, supplied as an oracle:
`failure` is any throw out of `callDeepSeek` (network failure, non-2xx
response, unparsable HTTP body, missing choices, or the key-validation
throws), which the outer `catch` of `getTradingDecision` receives; `success`
is a returned content string, with `parsed = some j` when it parses as JSON
(after stripping code fences) and `none` when `JSON.parse` fails. -/
inductive AnnotatorOutcome where
  | failure (msg : String)
  | success (parsed : Option AnnotatorJson)
  deriving DecidableEq, Repr

/-- `parseFloat(marketData.ticker?.last || "0")`. -/
def currentPriceOf (md : MarketDataCollection) : ℚ :=
  match md.ticker with
  | some t => t.last
  | none => 0

/-- The no-position branch of the decision logic (lines 779–786): take the
entry signal as the action with 5% size and its protective stop, else HOLD. -/
def entryOutcome (entry3m : EntryResult) : RiskOutcome :=
  if entry3m.signal then ⟨entry3m.action, "5%", some entry3m.sl⟩
  else ⟨"HOLD", "0", none⟩

/-- Lines 670–786 of the converged `getTradingDecision`: the deterministic
computation of finalAction/finalSize/finalSL before any annotator involvement.
`hasPosition` is `!!primaryPosition && parseFloat(primaryPosition.pos) > 0`. -/
def coreOutcome (md : MarketDataCollection) (acct : AccountContext) : RiskOutcome :=
  let currentPrice := currentPriceOf md
  let totalEquity := acct.balance.totalEq
  let trend1H := analyze1HTrend md.candles1H
  let entry3m := analyze3mEntry md.candles3m trend1H.direction
  match acct.positions.find? (fun p => p.instId == INSTRUMENT_ID) with
  | some p =>
    if 0 < p.pos then evaluateRisk trend1H.direction p totalEquity currentPrice md.candles3m
    else entryOutcome entry3m
  | none => entryOutcome entry3m

/-- Lines 848–871: the decision record built from the computed values with
deterministic default narrative text, before any annotator content is
merged. -/
def baseDecision (md : MarketDataCollection) (acct : AccountContext) : AIDecision :=
  let trend1H := analyze1HTrend md.candles1H
  let entry3m := analyze3mEntry md.candles3m trend1H.direction
  let core := coreOutcome md acct
  let tDirection := trend1H.description
  let tEntry := entry3m.structureLabel ++ " - " ++
    (if entry3m.signal then "满足入场" else entry3m.reason)
  { stage_analysis := "EMA趋势追踪"
    market_assessment := "【1H趋势】：" ++ tDirection ++ "\n【3m入场】：" ++ tEntry
    hot_events_overview := "正在分析热点..."
    eth_analysis := "EMA15/60 状态分析。趋势: " ++ tDirection
    trading_decision := {
      action := core.finalAction
      confidence := "100%"
      position_size := core.finalSize
      leverage := DEFAULT_LEVERAGE
      profit_target := ""
      stop_loss := core.sl.map toFixed2
      invalidation_condition := "Trend Reversal" }
    reasoning := "基于EMA15/60严格策略逻辑。1H趋势为" ++ tDirection ++ "。3m信号状态：" ++
      tEntry ++ "。"
    action := core.finalAction
    size := .fin 0
    leverage := DEFAULT_LEVERAGE }

/-- JS truthy-or: `aiJson.field ? aiJson.field : default` — an absent key or
an empty string keeps the default. -/
def jsOrStr (o : Option String) (d : String) : String :=
  match o with
  | some s => if s = "" then d else s
  | none => d

/-- Lines 873–891: merge parsed annotator JSON into the decision.  Only the
six narrative fields can change; a parse failure (`none`) keeps the defaults
(the catch only logs a warning). -/
def applyAnnotator (d : AIDecision) (p : Option AnnotatorJson) : AIDecision :=
  match p with
  | none => d
  | some j =>
    { d with
      stage_analysis := jsOrStr j.stage_analysis d.stage_analysis
      market_assessment := jsOrStr j.market_assessment d.market_assessment
      hot_events_overview := jsOrStr j.hot_events_overview d.hot_events_overview
      eth_analysis := jsOrStr j.eth_analysis d.eth_analysis
      reasoning := jsOrStr j.reasoning d.reasoning
      trading_decision := { d.trading_decision with
        invalidation_condition :=
          jsOrStr j.invalidation_condition d.trading_decision.invalidation_condition } }

/-- Lines 895–898: `contracts = (totalEquity*0.05*leverage) / (CONTRACT_VAL_ETH*currentPrice)`
with `leverage = parseFloat(DEFAULT_LEVERAGE)`. -/
def computedContracts (md : MarketDataCollection) (acct : AccountContext) : JsNum :=
  jsDiv (acct.balance.totalEq * 0.05 * DEFAULT_LEVERAGE)
    (CONTRACT_VAL_ETH * currentPriceOf md)

/-- Lines 893–900: when the computed action is BUY or SELL, overwrite the size
with `Math.max(contracts, 0.01).toFixed(2)`. -/
def applySizing (md : MarketDataCollection) (acct : AccountContext)
    (d : AIDecision) : AIDecision :=
  if (coreOutcome md acct).finalAction = "BUY" ∨ (coreOutcome md acct).finalAction = "SELL" then
    { d with size := jsToFixed2 (jsMax (computedContracts md acct) 0.01) }
  else d

/-- Lines 904–917: the safe decision returned by the outer `catch`. -/
def systemErrorDecision (msg : String) : AIDecision :=
  { stage_analysis := "策略执行错误"
    market_assessment := "无法评估"
    hot_events_overview := "数据获取失败"
    eth_analysis := "N/A"
    trading_decision := {
      action := "hold"
      confidence := "0%"
      position_size := "0"
      leverage := 0
      profit_target := ""
      stop_loss := none
      invalidation_condition := "" }
    reasoning := "系统错误: " ++ msg
    action := "HOLD"
    size := .fin 0
    leverage := 0 }

/-- Lines 662–918 of the converged `getTradingDecision`.  The empty-key guard
(`if (!apiKey) throw`) precedes the try/catch and propagates (`Except.error`).
The news fetch never throws and only feeds prompt text, so it is not
modelled.  Inside the `try`, the only statement that can throw is the
`callDeepSeek` boundary, supplied here as the `annotator` oracle; its
`failure` is converted by the `catch` into `systemErrorDecision`. -/
def getTradingDecision (apiKey : String) (md : MarketDataCollection)
    (acct : AccountContext) (annotator : AnnotatorOutcome) : Except String AIDecision :=
  if apiKey = "" then .error "请输入 DeepSeek API Key"
  else
    match annotator with
    | .failure msg => .ok (systemErrorDecision msg)
    | .success p => .ok (applySizing md acct (applyAnnotator (baseDecision md acct) p))

/-- With a nonempty key, the success path returns the composed decision. -/
theorem getTradingDecision_success_eq (key : String) (md : MarketDataCollection)
    (acct : AccountContext) (p : Option AnnotatorJson) (hk : key ≠ "") :
    getTradingDecision key md acct (.success p) =
      .ok (applySizing md acct (applyAnnotator (baseDecision md acct) p)) := by
  unfold getTradingDecision
  rw [if_neg hk]

/-- With a nonempty key, a throwing annotator call yields the safe decision. -/
theorem getTradingDecision_failure_eq (key : String) (md : MarketDataCollection)
    (acct : AccountContext) (msg : String) (hk : key ≠ "") :
    getTradingDecision key md acct (.failure msg) = .ok (systemErrorDecision msg) := by
  unfold getTradingDecision
  rw [if_neg hk]

/-- Merging annotator content never changes the decision-bearing fields. -/
theorem applyAnnotator_core_fields (d : AIDecision) (p : Option AnnotatorJson) :
    (applyAnnotator d p).action = d.action ∧
    (applyAnnotator d p).size = d.size ∧
    (applyAnnotator d p).trading_decision.action = d.trading_decision.action ∧
    (applyAnnotator d p).trading_decision.stop_loss = d.trading_decision.stop_loss ∧
    (applyAnnotator d p).trading_decision.leverage = d.trading_decision.leverage := by
  cases p <;> exact ⟨rfl, rfl, rfl, rfl, rfl⟩

/-- The sizing step only rewrites `size`, and only on BUY/SELL. -/
theorem applySizing_fields (md : MarketDataCollection) (acct : AccountContext)
    (d : AIDecision) :
    (applySizing md acct d).action = d.action ∧
    (applySizing md acct d).trading_decision = d.trading_decision ∧
    (applySizing md acct d).size =
      (if (coreOutcome md acct).finalAction = "BUY" ∨
          (coreOutcome md acct).finalAction = "SELL" then
        jsToFixed2 (jsMax (computedContracts md acct) 0.01) else d.size) := by
  unfold applySizing
  by_cases h : (coreOutcome md acct).finalAction = "BUY" ∨
      (coreOutcome md acct).finalAction = "SELL"
  · rw [if_pos h, if_pos h]
    exact ⟨rfl, rfl, rfl⟩
  · rw [if_neg h, if_neg h]
    exact ⟨rfl, rfl, rfl⟩

/-- Fields of the fully composed success-path decision, in terms of the
deterministic core outcome. -/
theorem composedDecision_fields (md : MarketDataCollection) (acct : AccountContext)
    (p : Option AnnotatorJson) :
    (applySizing md acct (applyAnnotator (baseDecision md acct) p)).action =
      (coreOutcome md acct).finalAction ∧
    (applySizing md acct (applyAnnotator (baseDecision md acct) p)).trading_decision.action =
      (coreOutcome md acct).finalAction ∧
    (applySizing md acct (applyAnnotator (baseDecision md acct) p)).trading_decision.stop_loss =
      (coreOutcome md acct).sl.map toFixed2 ∧
    (applySizing md acct (applyAnnotator (baseDecision md acct) p)).trading_decision.leverage =
      DEFAULT_LEVERAGE ∧
    (applySizing md acct (applyAnnotator (baseDecision md acct) p)).size =
      (if (coreOutcome md acct).finalAction = "BUY" ∨
          (coreOutcome md acct).finalAction = "SELL" then
        jsToFixed2 (jsMax (computedContracts md acct) 0.01) else .fin 0) := by
  obtain ⟨ha, hs, hta, hsl, hlev⟩ :=
    applyAnnotator_core_fields (baseDecision md acct) p
  obtain ⟨ha2, htd2, hs2⟩ :=
    applySizing_fields md acct (applyAnnotator (baseDecision md acct) p)
  refine ⟨?_, ?_, ?_, ?_, ?_⟩
  · rw [ha2, ha]; rfl
  · rw [htd2, hta]; rfl
  · rw [htd2, hsl]; rfl
  · rw [htd2, hlev]; rfl
  · rw [hs2, hs]; rfl

/-- C1 (amended): a successful annotator HTTP exchange can only affect
narrative text — for every parse outcome, including unparsable content
(`p = none`, defaults kept), the returned decision carries exactly the
deterministically computed action, size and stop-loss.  A transport-level
failure (unreachable, non-2xx, invalid HTTP body), however, throws inside the
try-block and the outer catch replaces the computed decision with the safe
HOLD decision, so for those failure modes the claim as stated fails (see the
counterexample). -/
theorem annotator_preserves_core (key : String) (md : MarketDataCollection)
    (acct : AccountContext) (p : Option AnnotatorJson) (hk : key ≠ "") :
    ∃ d, getTradingDecision key md acct (.success p) = .ok d ∧
      d.action = (coreOutcome md acct).finalAction ∧
      d.trading_decision.action = (coreOutcome md acct).finalAction ∧
      d.trading_decision.stop_loss = (coreOutcome md acct).sl.map toFixed2 ∧
      d.size = (if (coreOutcome md acct).finalAction = "BUY" ∨
          (coreOutcome md acct).finalAction = "SELL" then
        jsToFixed2 (jsMax (computedContracts md acct) 0.01) else .fin 0) := by
  obtain ⟨h1, h2, h3, _, h5⟩ := composedDecision_fields md acct p
  exact ⟨applySizing md acct (applyAnnotator (baseDecision md acct) p),
    getTradingDecision_success_eq key md acct p hk, h1, h2, h3, h5⟩

/-- Market snapshot on which the deterministic logic computes BUY: UP trend on
1H, fresh death-to-gold cross on 3m, last price 3000. -/
def c1Market : MarketDataCollection := ⟨some ⟨3000⟩, upTrend1H, buy3mCandles⟩

/-- Account with 1000 USDT equity and no open position. -/
def c1Account : AccountContext := ⟨⟨1000⟩, []⟩

/-- C1 counterexample: same inputs, computed action BUY (returned unchanged
when the annotator merely produces unparsable content), but a transport-level
annotator failure is caught by the outer handler and the returned decision is
the safe HOLD with size 0 and no stop — the computed BUY/size/stop are not
preserved. -/
theorem annotator_failure_cex :
    ((getTradingDecision "k" c1Market c1Account (.success none)).toOption.map
        (fun d => (d.action, d.size, d.trading_decision.stop_loss))) =
      some ("BUY", JsNum.fin 0.83, some 50) ∧
    ((getTradingDecision "k" c1Market c1Account (.failure "fetch failed")).toOption.map
        (fun d => (d.action, d.size, d.trading_decision.stop_loss))) =
      some ("HOLD", JsNum.fin 0, none) :=
  ⟨by decide, by decide⟩

theorem annotator_preserves_core_witness :
    ("k" : String) ≠ "" ∧
    ∃ d, getTradingDecision "k" c1Market c1Account (.success none) = .ok d ∧
      d.action = (coreOutcome c1Market c1Account).finalAction ∧
      d.trading_decision.action = (coreOutcome c1Market c1Account).finalAction ∧
      d.trading_decision.stop_loss = (coreOutcome c1Market c1Account).sl.map toFixed2 ∧
      d.size = (if (coreOutcome c1Market c1Account).finalAction = "BUY" ∨
          (coreOutcome c1Market c1Account).finalAction = "SELL" then
        jsToFixed2 (jsMax (computedContracts c1Market c1Account) 0.01) else .fin 0) :=
  ⟨by decide, annotator_preserves_core "k" c1Market c1Account none (by decide)⟩

/-- C5 (amended): with a nonempty API key, `getTradingDecision` never
propagates an exception — every annotator outcome yields a returned decision,
and when the annotator call throws, the safe decision (action HOLD, size 0,
leverage 0).  With an empty API key the first-line guard throws before the
try/catch and the exception does propagate (see the counterexample). -/
theorem nonempty_key_never_throws (key : String) (md : MarketDataCollection)
    (acct : AccountContext) (ann : AnnotatorOutcome) (hk : key ≠ "") :
    ∃ d, getTradingDecision key md acct ann = .ok d ∧
      (∀ msg, ann = .failure msg →
        d.action = "HOLD" ∧ d.size = .fin 0 ∧ d.leverage = 0) := by
  cases ann with
  | failure msg =>
    exact ⟨systemErrorDecision msg, getTradingDecision_failure_eq key md acct msg hk,
      fun m hm => by cases hm; exact ⟨rfl, rfl, rfl⟩⟩
  | success p =>
    exact ⟨applySizing md acct (applyAnnotator (baseDecision md acct) p),
      getTradingDecision_success_eq key md acct p hk,
      fun m hm => AnnotatorOutcome.noConfusion hm⟩

/-- C5 counterexample: an empty API key makes `getTradingDecision` throw
(`请输入 DeepSeek API Key`) before the try/catch, propagating to the caller
instead of returning a safe HOLD decision. -/
theorem empty_key_throws_cex :
    getTradingDecision "" c1Market c1Account (.success none) =
      .error "请输入 DeepSeek API Key" := rfl

/-- Trivial empty snapshots for witnesses. -/
def emptyMarket : MarketDataCollection := ⟨none, [], []⟩

def emptyAccount : AccountContext := ⟨⟨0⟩, []⟩

theorem nonempty_key_never_throws_witness :
    ("k" : String) ≠ "" ∧
    ∃ d, getTradingDecision "k" emptyMarket emptyAccount (.failure "boom") = .ok d ∧
      d.action = "HOLD" ∧ d.size = .fin 0 ∧ d.leverage = 0 :=
  ⟨by decide, by
    obtain ⟨d, hd, hf⟩ :=
      nonempty_key_never_throws "k" emptyMarket emptyAccount (.failure "boom") (by decide)
    exact ⟨d, hd, hf "boom" rfl⟩⟩

/-- C9: whenever the computed final action is BUY or SELL, the returned size
is `(0.05 × totalEquity × DEFAULT_LEVERAGE) / (CONTRACT_VAL_ETH ×
currentPrice)` floored at 0.01 contracts and rounded to two decimal places,
the configured leverage constant is attached, and the contract value is the
constant 0.1.  Being a pure function of the inputs, the computation is
deterministic by construction: identical inputs give this same value. -/
theorem contract_size_formula (key : String) (md : MarketDataCollection)
    (acct : AccountContext) (p : Option AnnotatorJson) (hk : key ≠ "")
    (hact : (coreOutcome md acct).finalAction = "BUY" ∨
            (coreOutcome md acct).finalAction = "SELL") :
    ∃ d, getTradingDecision key md acct (.success p) = .ok d ∧
      d.size = jsToFixed2 (jsMax
        (jsDiv (0.05 * acct.balance.totalEq * DEFAULT_LEVERAGE)
          (CONTRACT_VAL_ETH * currentPriceOf md)) 0.01) ∧
      d.trading_decision.leverage = DEFAULT_LEVERAGE ∧
      CONTRACT_VAL_ETH = 0.1 := by
  obtain ⟨_, _, _, h4, h5⟩ := composedDecision_fields md acct p
  refine ⟨applySizing md acct (applyAnnotator (baseDecision md acct) p),
    getTradingDecision_success_eq key md acct p hk, ?_, h4, rfl⟩
  rw [h5, if_pos hact]
  unfold computedContracts
  rw [show (0.05 : ℚ) * acct.balance.totalEq * DEFAULT_LEVERAGE =
    acct.balance.totalEq * 0.05 * DEFAULT_LEVERAGE from by ring]

theorem contract_size_formula_witness :
    (("k" : String) ≠ "" ∧
      ((coreOutcome c1Market c1Account).finalAction = "BUY" ∨
       (coreOutcome c1Market c1Account).finalAction = "SELL")) ∧
    ∃ d, getTradingDecision "k" c1Market c1Account (.success none) = .ok d ∧
      d.size = jsToFixed2 (jsMax
        (jsDiv (0.05 * c1Account.balance.totalEq * DEFAULT_LEVERAGE)
          (CONTRACT_VAL_ETH * currentPriceOf c1Market)) 0.01) ∧
      d.trading_decision.leverage = DEFAULT_LEVERAGE ∧
      CONTRACT_VAL_ETH = 0.1 :=
  ⟨⟨by decide, by decide⟩,
   contract_size_formula "k" c1Market c1Account none (by decide) (by decide)⟩

/-- Market snapshot with no ticker: the current price parses to 0. -/
def c10Market : MarketDataCollection := ⟨none, upTrend1H, buy3mCandles⟩

/-- C10: the contract-size division is unguarded against a zero denominator.
With the ticker absent, `currentPrice` is 0; the entry detector does not
consult the price, so a BUY is still produced, and the returned decision's
size is the non-finite `+Infinity` produced by `positionValue / 0` — not a
finite contract count and not an error. -/
theorem zero_price_size_nonfinite :
    currentPriceOf c10Market = 0 ∧
    ((getTradingDecision "k" c10Market c1Account (.success none)).toOption.map
        (fun d => (d.action, d.size))) = some ("BUY", JsNum.posInf) :=
  ⟨rfl, by decide⟩
